import Mathlib

/-!
Shallow embedding of the transcription-reporting repository's core logic.

Part 1 models `apps/web/src/lib/validation.ts`: the template regex
`/^my name is (.+?) and i belong to group (.+?) and today i met (.+?) at (.+?)\.?$/i`,
the semantic field checks and `validateTranscription`.

Strings are modelled as Lean `String`/`List Char`; JavaScript's `trim`,
`\s`, the regex dot (which excludes line terminators) and `parseInt` are
modelled explicitly below.
-/

/-- The set of characters JavaScript's `String.prototype.trim` removes and
its regex class `\s` matches: WhiteSpace plus LineTerminator. -/
def jsWhitespace (c : Char) : Bool :=
  c.toNat == 0x20 || c.toNat == 0x09 || c.toNat == 0x0A || c.toNat == 0x0D ||
  c.toNat == 0x0B || c.toNat == 0x0C || c.toNat == 0xA0 || c.toNat == 0x1680 ||
  (decide (0x2000 ≤ c.toNat) && decide (c.toNat ≤ 0x200A)) ||
  c.toNat == 0x2028 || c.toNat == 0x2029 ||
  c.toNat == 0x202F || c.toNat == 0x205F || c.toNat == 0x3000 || c.toNat == 0xFEFF

/-- JavaScript `text.trim()` on a character list. -/
def jsTrim (cs : List Char) : List Char :=
  ((cs.dropWhile jsWhitespace).reverse.dropWhile jsWhitespace).reverse

/-- Case canonicalisation performed by the regex `i` flag against the
pattern's ASCII-lowercase literals: an ASCII upper-case letter is folded to
lower case, everything else is left alone. -/
def asciiLower (c : Char) : Char :=
  if 'A' ≤ c ∧ c ≤ 'Z' then Char.ofNat (c.toNat + 32) else c

/-- A character the regex `.` can match: anything but a line terminator
(the pattern has no `s` flag). -/
def dotOk (c : Char) : Bool :=
  !(c.toNat == 0x0A || c.toNat == 0x0D || c.toNat == 0x2028 || c.toNat == 0x2029)

/-- Consume the case-insensitive literal `lit` (given in lower case) from
the front of `cs`, returning the remainder. -/
def stripLitCI : List Char → List Char → Option (List Char)
  | [], cs => some cs
  | _ :: _, [] => none
  | l :: ls, c :: cs => if asciiLower c = l then stripLitCI ls cs else none

/-- Does the tail after the final capture satisfy `\.?$` : empty, or a single
period? -/
def optDot (cs : List Char) : Bool := cs == [] || cs == ['.']

/-- The regex fragment `(.+?)\.?$` : the lazily captured final group. -/
def lastCapture : List Char → Option (List Char)
  | [] => none
  | c :: cs =>
    if dotOk c then
      if optDot cs then some [c]
      else (lastCapture cs).map (fun g => c :: g)
    else none

/-- The regex fragment `(.+?)lit...` : lazily capture a non-empty group,
then the case-insensitive literal `lit`, then continue with `k`, backtracking
into a longer group whenever the remainder fails. -/
def lazySplit {α : Type} (lit : List Char) (k : List Char → Option α) :
    List Char → Option (List Char × α)
  | [] => none
  | c :: cs =>
    if dotOk c then
      match stripLitCI lit cs with
      | some rest =>
        match k rest with
        | some a => some ([c], a)
        | none => (lazySplit lit k cs).map (fun p => (c :: p.1, p.2))
      | none => (lazySplit lit k cs).map (fun p => (c :: p.1, p.2))
    else none

def litName : List Char := "my name is ".data

def litBelong : List Char := " and i belong to group ".data

def litMet : List Char := " and today i met ".data

def litAt : List Char := " at ".data

/-- `trimmedText.match(REQUIRED_PATTERN)` : the anchored case-insensitive
template match, returning the four captured groups. -/
def matchTemplate (cs : List Char) :
    Option (List Char × List Char × List Char × List Char) :=
  match stripLitCI litName cs with
  | none => none
  | some r1 =>
    match lazySplit litBelong (lazySplit litMet (lazySplit litAt lastCapture)) r1 with
    | none => none
    | some (a, b, c, d) => some (a, b, c, d)

/-- The extraction output of the validator (shared type `VoiceMessage`). -/
structure VoiceMessage where
  speakerName : String
  groupNumber : String
  personMet : String
  location : String
deriving DecidableEq, Repr

/-- The validator's result (shared type `ValidationResult`); the `errors`
key is absent except in the semantic-error branch. -/
structure ValidationResult where
  isValid : Bool
  message : String
  extractedData : Option VoiceMessage
  errors : Option (List String)
deriving DecidableEq, Repr

/-- The regex ranges `a-z` and `A-Z` (0x61..0x7A and 0x41..0x5A). -/
def asciiLetter (c : Char) : Bool :=
  (decide (0x61 ≤ c.toNat) && decide (c.toNat ≤ 0x7A)) ||
  (decide (0x41 ≤ c.toNat) && decide (c.toNat ≤ 0x5A))

/-- The regex range `0-9` (0x30..0x39). -/
def digitChar (c : Char) : Bool := decide (0x30 ≤ c.toNat) && decide (c.toNat ≤ 0x39)

/-- The character class `[a-zA-Z\s\-\.\']` of `isValidName`: letters,
whitespace, hyphen (0x2D), period (0x2E), apostrophe (0x27). -/
def nameChar (c : Char) : Bool :=
  asciiLetter c || jsWhitespace c || c.toNat == 0x2D || c.toNat == 0x2E ||
  c.toNat == 0x27

/-- The character class `[a-zA-Z0-9\s\-\.\,\']` of `isValidLocation`:
letters, digits, whitespace, hyphen, period, comma (0x2C), apostrophe. -/
def locationChar (c : Char) : Bool :=
  asciiLetter c || digitChar c || jsWhitespace c || c.toNat == 0x2D ||
  c.toNat == 0x2E || c.toNat == 0x2C || c.toNat == 0x27

def isValidName (name : String) : Bool :=
  decide (2 ≤ name.data.length) && decide (name.data.length ≤ 100) &&
  (!name.data.isEmpty && name.data.all nameChar)

/-- The digit run consumed by `parseInt` after sign handling: `none` when no
leading digit exists (`NaN`). -/
def digitsRead (t : List Char) : Option Nat :=
  let ds := t.takeWhile digitChar
  if ds.isEmpty then none else some (ds.foldl (fun a c => a * 10 + (c.toNat - 48)) 0)

/-- JavaScript `parseInt(s, 10)` : skip leading whitespace, optional sign,
then the longest run of decimal digits; `none` models `NaN`. -/
def jsParseInt10 (s : String) : Option Int :=
  match s.data.dropWhile jsWhitespace with
  | '-' :: rest => (digitsRead rest).map (fun n => -(n : Int))
  | '+' :: rest => (digitsRead rest).map (fun n => (n : Int))
  | rest => (digitsRead rest).map (fun n => (n : Int))

def isValidGroupNumber (groupStr : String) : Bool :=
  match jsParseInt10 groupStr with
  | none => false
  | some groupNum => decide (0 < groupNum) && decide (groupNum ≤ 999)

def isValidLocation (location : String) : Bool :=
  decide (2 ≤ location.data.length) && decide (location.data.length ≤ 200) &&
  (!location.data.isEmpty && location.data.all locationChar)

/-- The semantic checker: four checks run in sequence, each pushing its
error string (mirrors the `errors.push` sequence of `validateExtractedData`). -/
def validateExtractedData (data : VoiceMessage) : List String :=
  let errors : List String := []
  let errors := if !isValidName data.speakerName then
    errors ++ ["Invalid speaker name"] else errors
  let errors := if !isValidGroupNumber data.groupNumber then
    errors ++ ["Group number must be a valid number"] else errors
  let errors := if !isValidName data.personMet then
    errors ++ ["Invalid person name"] else errors
  let errors := if !isValidLocation data.location then
    errors ++ ["Invalid location"] else errors
  errors

def formatHintMessage : String :=
  "❌ Please follow the exact format: \"My name is [name] and I belong to group [#] and today I met [name] at [location].\""

def successMessage : String := "✅ Perfect! The message follows the required format."

def issuesMessage (errors : List String) : String :=
  "Format is correct but data has issues: " ++ String.intercalate ", " errors

/-- The `VoiceMessage` built from the four captured groups, each trimmed
(`match[i].trim()`). -/
def extractedOf (g1 g2 g3 g4 : List Char) : VoiceMessage :=
  { speakerName := String.mk (jsTrim g1)
    groupNumber := String.mk (jsTrim g2)
    personMet := String.mk (jsTrim g3)
    location := String.mk (jsTrim g4) }

/-- `validateTranscription` from `apps/web/src/lib/validation.ts`. -/
def validateTranscription (text : String) : ValidationResult :=
  let trimmedText := jsTrim text.data
  if trimmedText.isEmpty then
    { isValid := false, message := "", extractedData := none, errors := none }
  else
    match matchTemplate trimmedText with
    | some (g1, g2, g3, g4) =>
      let extractedData : VoiceMessage := extractedOf g1 g2 g3 g4
      let errors := validateExtractedData extractedData
      if !errors.isEmpty then
        { isValid := false, message := issuesMessage errors
          extractedData := some extractedData, errors := some errors }
      else
        { isValid := true, message := successMessage
          extractedData := some extractedData, errors := none }
    | none =>
      { isValid := false, message := formatHintMessage
        extractedData := none, errors := none }

/-!
Part 2 models `MeetingsService` (the meetings controller/service file):
`createMeetingRecord`, `updateDailyStatistics`, `syncToGoogleSheets` and the
`processBackgroundTasks` body. Dates and timestamps are abstracted to `Nat`;
the Prisma client is modelled as an explicit list-based store, with injected
flags/oracles standing for the fallibility of the storage and of the Google
Sheets client.
-/

inductive RecordingStatus where
  | SUBMITTED | VALIDATED | PROCESSED | FAILED | ARCHIVED
deriving DecidableEq, Repr

inductive ProcessingStatus where
  | PENDING | PROCESSING | COMPLETED | FAILED | RETRYING
deriving DecidableEq, Repr

/-- A persisted `MeetingRecord` row (the fields the modelled operations
read or write). -/
structure MeetingRecordRow where
  id : Nat
  recordingDate : Nat
  speakerName : String
  groupNumber : String
  personMet : String
  location : String
  fullTranscription : String
  recordingDuration : String
  status : RecordingStatus
  processingStatus : ProcessingStatus
  syncedToSheets : Bool
  googleSheetsRowId : Option Nat
  sheetsLastSync : Option Nat
deriving DecidableEq, Repr

/-- A `DailyStats` row (durations abstracted to `Nat`; the code only ever
writes `0` here). -/
structure DailyStatsRow where
  date : Nat
  totalRecordings : Nat
  successfulRecordings : Nat
  failedRecordings : Nat
  uniqueGroups : Nat
  uniqueSpeakers : Nat
  averageDuration : Nat
deriving DecidableEq, Repr

/-- The database state plus the queue of scheduled fire-and-forget
background tasks (record ids handed to `processBackgroundTasks`). -/
structure DbState where
  records : List MeetingRecordRow
  dailyStats : List DailyStatsRow
  pendingBackground : List Nat
deriving DecidableEq, Repr

/-- The errors `createMeetingRecord` can throw: the `BadRequestException`
carrying the validator's message/details, and the generic
`BadRequestException("Failed to create meeting record")` of the catch block. -/
inductive ServiceError where
  | invalidMessageFormat (message : String) (details : Option (List String))
  | failedToCreate
deriving DecidableEq, Repr

/-- The DTO of the create call (audio/metadata omitted: no modelled claim
reads them). -/
structure CreateMeetingRecordDto where
  fullTranscription : String
  recordingDuration : String
deriving DecidableEq, Repr

/-- The injected collaborators and failure behaviour of one create call:
the validation service, the derived date snapshot, and whether the two
storage calls throw. -/
structure CreateEnv where
  validate : String → ValidationResult
  today : Nat
  createFails : Bool
  statsFails : Bool

/-- The `dailyStats.upsert` of `updateDailyStatistics`: increment
`totalRecordings`/`successfulRecordings` on the row for `date` if present,
else create the baseline row `{1, 1, 0, 1, 1, 0}`. -/
def upsertDaily (date : Nat) : List DailyStatsRow → List DailyStatsRow
  | [] => [{ date := date, totalRecordings := 1, successfulRecordings := 1,
             failedRecordings := 0, uniqueGroups := 1, uniqueSpeakers := 1,
             averageDuration := 0 }]
  | r :: rs =>
    if r.date = date then
      { r with totalRecordings := r.totalRecordings + 1,
               successfulRecordings := r.successfulRecordings + 1 } :: rs
    else r :: upsertDaily date rs

/-- The row `prisma.meetingRecord.create` persists for this call. -/
def newMeetingRecord (env : CreateEnv) (dto : CreateMeetingRecordDto)
    (d : VoiceMessage) (id : Nat) : MeetingRecordRow :=
  { id := id
    recordingDate := env.today
    speakerName := d.speakerName
    groupNumber := d.groupNumber
    personMet := d.personMet
    location := d.location
    fullTranscription := dto.fullTranscription
    recordingDuration := dto.recordingDuration
    status := RecordingStatus.SUBMITTED
    processingStatus := ProcessingStatus.PENDING
    syncedToSheets := false
    googleSheetsRowId := none
    sheetsLastSync := none }

/-- `MeetingsService.createMeetingRecord`: validate, throw the validator's
message/details when invalid; otherwise persist, schedule the background
sync, then synchronously upsert the daily statistics; any storage failure
inside the try block surfaces as the generic failure. -/
def createMeetingRecord (env : CreateEnv) (dto : CreateMeetingRecordDto)
    (db : DbState) : Except ServiceError MeetingRecordRow × DbState :=
  let validationResult := env.validate dto.fullTranscription
  if !validationResult.isValid then
    (Except.error (ServiceError.invalidMessageFormat validationResult.message
      validationResult.errors), db)
  else
    let d := validationResult.extractedData.getD
      { speakerName := "", groupNumber := "", personMet := "", location := "" }
    if env.createFails then (Except.error ServiceError.failedToCreate, db)
    else
      let rec0 := newMeetingRecord env dto d db.records.length
      let db1 : DbState := { db with records := db.records ++ [rec0] }
      let db2 : DbState := { db1 with pendingBackground := db1.pendingBackground ++ [rec0.id] }
      if env.statsFails then (Except.error ServiceError.failedToCreate, db2)
      else
        (Except.ok rec0, { db2 with dailyStats := upsertDaily env.today db2.dailyStats })

/-- Apply a patch to the record with the given id
(`prisma.meetingRecord.update({where: {id}})`). -/
def updateRecord (db : DbState) (id : Nat)
    (f : MeetingRecordRow → MeetingRecordRow) : DbState :=
  { db with records := db.records.map (fun r => if r.id = id then f r else r) }

/-- The ordering `orderBy: recordingDate asc` of the sync query. -/
def recDateLe (a b : MeetingRecordRow) : Prop := a.recordingDate ≤ b.recordingDate

instance : DecidableRel recDateLe :=
  fun a b => Nat.decLe a.recordingDate b.recordingDate

instance : IsTotal MeetingRecordRow recDateLe :=
  ⟨fun a b => Nat.le_total a.recordingDate b.recordingDate⟩

instance : IsTrans MeetingRecordRow recDateLe :=
  ⟨fun _ _ _ => Nat.le_trans⟩

/-- The batch fetched by `syncToGoogleSheets`: unsynced records ordered by
`recordingDate` ascending (a stable sort), at most 100 of them. -/
def pendingBatch (db : DbState) : List MeetingRecordRow :=
  ((db.records.filter (fun r => !r.syncedToSheets)).insertionSort recDateLe).take 100

/-- The per-record loop of `syncToGoogleSheets`: push each record; on
success mark it synced with the returned row id and the current timestamp,
on failure count the error and move on. -/
def syncLoop (push : MeetingRecordRow → Except String Nat) (now : Nat) :
    List MeetingRecordRow → DbState → Nat → Nat → (Nat × Nat) × DbState
  | [], db, synced, errors => ((synced, errors), db)
  | r :: rs, db, synced, errors =>
    match push r with
    | Except.ok rowId =>
      syncLoop push now rs
        (updateRecord db r.id (fun q =>
          { q with syncedToSheets := true, googleSheetsRowId := some rowId,
                   sheetsLastSync := some now }))
        (synced + 1) errors
    | Except.error _ => syncLoop push now rs db synced (errors + 1)

/-- `MeetingsService.syncToGoogleSheets`. -/
def syncToGoogleSheets (push : MeetingRecordRow → Except String Nat)
    (now : Nat) (db : DbState) : (Nat × Nat) × DbState :=
  syncLoop push now (pendingBatch db) db 0 0

/-- The body of the `setImmediate` closure in
`MeetingsService.processBackgroundTasks`: fetch the record, push it to the
sheet, and on success set `syncedToSheets`/`sheetsLastSync` — the returned
row id is discarded and `googleSheetsRowId` is not written; any error is
contained. -/
def backgroundSyncTask (push : MeetingRecordRow → Except String Nat)
    (now : Nat) (id : Nat) (db : DbState) : DbState :=
  match db.records.find? (fun r => r.id = id) with
  | none => db
  | some record =>
    match push record with
    | Except.ok _ =>
      updateRecord db id (fun q =>
        { q with syncedToSheets := true, sheetsLastSync := some now })
    | Except.error _ => db

/-- Run `n` create calls in sequence, threading the store. -/
def runCreates (env : CreateEnv) (dto : CreateMeetingRecordDto) :
    Nat → DbState → DbState
  | 0, db => db
  | n + 1, db => runCreates env dto n (createMeetingRecord env dto db).2

/-- Total `totalRecordings` across the rows for a date. -/
def totalFor (date : Nat) (stats : List DailyStatsRow) : Nat :=
  ((stats.filter (fun r => r.date = date)).map (fun r => r.totalRecordings)).sum

/-- The spec's sync invariant: a record marked synced carries a row id and
a last-sync timestamp. -/
def syncInvariant (db : DbState) : Prop :=
  ∀ r ∈ db.records, r.syncedToSheets = true →
    r.googleSheetsRowId.isSome ∧ r.sheetsLastSync.isSome

/-- The spec's name rule: length in [2,100] and characters limited to
letters, whitespace, hyphen (0x2D), period (0x2E), apostrophe (0x27). -/
def specNamePred (s : String) : Prop :=
  2 ≤ s.data.length ∧ s.data.length ≤ 100 ∧
  ∀ c ∈ s.data, asciiLetter c = true ∨ jsWhitespace c = true ∨
    c.toNat = 0x2D ∨ c.toNat = 0x2E ∨ c.toNat = 0x27

/-- The spec's location rule: length in [2,200] over letters, digits,
whitespace, hyphen, period, comma (0x2C), apostrophe. -/
def specLocationPred (s : String) : Prop :=
  2 ≤ s.data.length ∧ s.data.length ≤ 200 ∧
  ∀ c ∈ s.data, asciiLetter c = true ∨ digitChar c = true ∨ jsWhitespace c = true ∨
    c.toNat = 0x2D ∨ c.toNat = 0x2E ∨ c.toNat = 0x2C ∨ c.toNat = 0x27

def goodText : String :=
  "My name is John Smith and I belong to group 5 and today I met Sarah Johnson at the coffee shop."

def badText : String := "Hi, my name is John and I met Sarah today."

def emptyVoice : VoiceMessage :=
  { speakerName := "", groupNumber := "", personMet := "", location := "" }

def envOkStats : CreateEnv :=
  { validate := validateTranscription, today := 7, createFails := false,
    statsFails := false }

def envBadStats : CreateEnv :=
  { validate := validateTranscription, today := 7, createFails := false,
    statsFails := true }

def goodDto : CreateMeetingRecordDto :=
  { fullTranscription := goodText, recordingDuration := "00:30" }

def badDto : CreateMeetingRecordDto :=
  { fullTranscription := badText, recordingDuration := "00:10" }

def emptyDb : DbState :=
  { records := [], dailyStats := [], pendingBackground := [] }

def soloRecord : MeetingRecordRow :=
  { id := 0
    recordingDate := 10
    speakerName := "Al"
    groupNumber := "5"
    personMet := "Bo"
    location := "HQ"
    fullTranscription := "t"
    recordingDuration := "00:10"
    status := RecordingStatus.SUBMITTED
    processingStatus := ProcessingStatus.PENDING
    syncedToSheets := false
    googleSheetsRowId := none
    sheetsLastSync := none }

def soloDb : DbState :=
  { records := [soloRecord], dailyStats := [], pendingBackground := [0] }

/-- The pointwise effect of one full sync pass on a stored record: a record
whose id is in the batch is rewritten according to its push result,
everything else is untouched. -/
def applyPush (push : MeetingRecordRow → Except String Nat) (now : Nat)
    (batch : List MeetingRecordRow) (q : MeetingRecordRow) : MeetingRecordRow :=
  if batch.any (fun r => r.id = q.id) then
    match push q with
    | Except.ok rowId =>
      { q with syncedToSheets := true, googleSheetsRowId := some rowId,
               sheetsLastSync := some now }
    | Except.error _ => q
  else q

def rowA : MeetingRecordRow :=
  { id := 0
    recordingDate := 5
    speakerName := "Al"
    groupNumber := "5"
    personMet := "Bo"
    location := "HQ"
    fullTranscription := "ta"
    recordingDuration := "00:10"
    status := RecordingStatus.SUBMITTED
    processingStatus := ProcessingStatus.PENDING
    syncedToSheets := false
    googleSheetsRowId := none
    sheetsLastSync := none }

def rowB : MeetingRecordRow :=
  { id := 1
    recordingDate := 3
    speakerName := "Cy"
    groupNumber := "6"
    personMet := "Di"
    location := "Park"
    fullTranscription := "tb"
    recordingDuration := "00:20"
    status := RecordingStatus.SUBMITTED
    processingStatus := ProcessingStatus.PENDING
    syncedToSheets := false
    googleSheetsRowId := none
    sheetsLastSync := none }

def dbW : DbState :=
  { records := [rowA, rowB], dailyStats := [], pendingBackground := [] }

/-- A push that succeeds on record id 1 and fails on everything else. -/
def pushW : MeetingRecordRow → Except String Nat :=
  fun r => if r.id = 1 then Except.ok 42 else Except.error "boom"

/-- What `(.+?)\.?$` accepts: a non-empty span of dot-matchable characters
followed by at most one period. -/
def specLast (cs : List Char) : Prop :=
  ∃ d p, d ≠ [] ∧ (∀ x ∈ d, dotOk x = true) ∧ (p = [] ∨ p = ['.']) ∧ cs = d ++ p

/-- What `(.+?)<lit>...` accepts before a continuation accepting `K`: a
non-empty span of dot-matchable characters, the literal case-insensitively,
then a remainder accepted by the continuation. -/
def specSplit (lit : List Char) (K : List Char → Prop) (cs : List Char) : Prop :=
  ∃ g l0 r, g ≠ [] ∧ (∀ x ∈ g, dotOk x = true) ∧ l0.map asciiLower = lit ∧ K r ∧
    cs = g ++ l0 ++ r

/-- The spec's template acceptance condition, written flat: the trimmed
string is, case-insensitively in the literal parts, exactly
`my name is <A> and i belong to group <B> and today i met <C> at <D>`
followed by at most one period, where the four spans are non-empty and
contain no line terminator, with nothing else before or after. -/
def specTemplateMatch (cs : List Char) : Prop :=
  ∃ l0 a l1 b l2 c l3 d p,
    l0.map asciiLower = litName ∧ a ≠ [] ∧ (∀ x ∈ a, dotOk x = true) ∧
    l1.map asciiLower = litBelong ∧ b ≠ [] ∧ (∀ x ∈ b, dotOk x = true) ∧
    l2.map asciiLower = litMet ∧ c ≠ [] ∧ (∀ x ∈ c, dotOk x = true) ∧
    l3.map asciiLower = litAt ∧ d ≠ [] ∧ (∀ x ∈ d, dotOk x = true) ∧
    (p = [] ∨ p = ['.']) ∧
    cs = l0 ++ a ++ l1 ++ b ++ l2 ++ c ++ l3 ++ d ++ p

/-!
Part 3: theorems. First the characterisation of trimming, then the claims
about the validation engine, then the claims about the service.
-/

/-- Trimming yields the empty string exactly on whitespace-only input. -/
theorem jsTrim_eq_nil_iff (cs : List Char) :
    jsTrim cs = [] ↔ ∀ c ∈ cs, jsWhitespace c = true := by
  unfold jsTrim
  rw [List.reverse_eq_nil_iff, List.dropWhile_eq_nil_iff]
  constructor
  · intro h c hc
    have hsplit := List.takeWhile_append_dropWhile jsWhitespace cs
    rcases List.mem_append.1 (by rw [hsplit]; exact hc) with h1 | h2
    · exact List.mem_takeWhile_imp h1
    · exact h c (List.mem_reverse.2 h2)
  · intro h c hc
    exact h c (List.Sublist.mem (List.mem_reverse.1 hc) (List.dropWhile_sublist jsWhitespace))

/-- C2: for every input whose trim is empty (empty or whitespace-only
text), `validateTranscription` returns the neutral result
`{isValid := false, message := "", extractedData := none}` (with no
`errors` key), and does so exactly on such input — distinguishing the
neutral result from a malformed-format error. -/
theorem claim2_blank_input_neutral (t : String) :
    validateTranscription t =
      { isValid := false, message := "", extractedData := none, errors := none } ↔
    ∀ c ∈ t.data, jsWhitespace c = true := by
  by_cases h : jsTrim t.data = []
  · have hval : validateTranscription t =
        { isValid := false, message := "", extractedData := none, errors := none } := by
      unfold validateTranscription
      rw [if_pos (List.isEmpty_iff.2 h)]
    exact iff_of_true hval ((jsTrim_eq_nil_iff t.data).1 h)
  · apply iff_of_false
    · intro heq
      unfold validateTranscription at heq
      rw [if_neg (by rw [List.isEmpty_iff]; exact h)] at heq
      cases hm : matchTemplate (jsTrim t.data) with
      | none =>
        rw [hm] at heq
        have := congrArg ValidationResult.message heq
        simp only at this
        exact absurd this (by decide)
      | some g =>
        obtain ⟨g1, g2, g3, g4⟩ := g
        rw [hm] at heq
        by_cases he : (validateExtractedData (extractedOf g1 g2 g3 g4)).isEmpty
        · simp only [he, Bool.not_true, Bool.false_eq_true, if_false] at heq
          have := congrArg ValidationResult.isValid heq
          simp only at this
          exact absurd this (by decide)
        · simp only [Bool.not_eq_true'] at he
          simp only [he, Bool.not_false, if_true] at heq
          have := congrArg ValidationResult.extractedData heq
          simp only at this
          exact absurd this (by simp)
    · intro hall
      exact h ((jsTrim_eq_nil_iff t.data).2 hall)

theorem isValidName_iff (s : String) : isValidName s = true ↔ specNamePred s := by
  simp only [isValidName, specNamePred, Bool.and_eq_true, decide_eq_true_eq,
    Bool.not_eq_true', List.isEmpty_eq_false, List.all_eq_true, nameChar,
    Bool.or_eq_true, beq_iff_eq, or_assoc]
  constructor
  · rintro ⟨⟨h2, h100⟩, -, hall⟩
    exact ⟨h2, h100, hall⟩
  · rintro ⟨h2, h100, hall⟩
    refine ⟨⟨h2, h100⟩, ?_, hall⟩
    intro hnil
    rw [hnil] at h2
    simp at h2

theorem isValidLocation_iff (s : String) : isValidLocation s = true ↔ specLocationPred s := by
  simp only [isValidLocation, specLocationPred, Bool.and_eq_true, decide_eq_true_eq,
    Bool.not_eq_true', List.isEmpty_eq_false, List.all_eq_true, locationChar,
    Bool.or_eq_true, beq_iff_eq, or_assoc]
  constructor
  · rintro ⟨⟨h2, h200⟩, -, hall⟩
    exact ⟨h2, h200, hall⟩
  · rintro ⟨h2, h200, hall⟩
    refine ⟨⟨h2, h200⟩, ?_, hall⟩
    intro hnil
    rw [hnil] at h2
    simp at h2

theorem nameChar_eq_false_of_digit (c : Char) (hd : digitChar c = true) :
    nameChar c = false := by
  simp only [digitChar, Bool.and_eq_true, decide_eq_true_eq] at hd
  simp only [nameChar, asciiLetter, jsWhitespace, Bool.or_eq_false_iff,
    Bool.and_eq_false_iff, decide_eq_false_iff_not, beq_eq_false_iff_ne, ne_eq,
    not_le]
  omega

theorem isValidName_false_of_digit (s : String) (c : Char) (hc : c ∈ s.data)
    (hd : digitChar c = true) : isValidName s = false := by
  cases h : isValidName s with
  | false => rfl
  | true =>
    exfalso
    have hall : s.data.all nameChar = true := by
      simp only [isValidName, Bool.and_eq_true] at h
      exact h.2.2
    have hcc := List.all_eq_true.1 hall c hc
    rw [nameChar_eq_false_of_digit c hd] at hcc
    exact Bool.false_ne_true hcc

/-- The four checks, in order, as an explicit concatenation (the
`errors.push` sequence of `validateExtractedData`). -/
theorem validateExtractedData_eq (d : VoiceMessage) :
    validateExtractedData d =
      (if isValidName d.speakerName then [] else ["Invalid speaker name"]) ++
      (if isValidGroupNumber d.groupNumber then [] else ["Group number must be a valid number"]) ++
      (if isValidName d.personMet then [] else ["Invalid person name"]) ++
      (if isValidLocation d.location then [] else ["Invalid location"]) := by
  cases h1 : isValidName d.speakerName <;>
    cases h2 : isValidGroupNumber d.groupNumber <;>
      cases h3 : isValidName d.personMet <;>
        cases h4 : isValidLocation d.location <;>
          simp [validateExtractedData, h1, h2, h3, h4]

theorem groupMessage_mem_iff (d : VoiceMessage) :
    "Group number must be a valid number" ∈ validateExtractedData d ↔
      isValidGroupNumber d.groupNumber = false := by
  rw [validateExtractedData_eq]
  cases h1 : isValidName d.speakerName <;>
    cases h2 : isValidGroupNumber d.groupNumber <;>
      cases h3 : isValidName d.personMet <;>
        cases h4 : isValidLocation d.location <;>
          simp [h1, h2, h3, h4]

theorem speakerMessage_mem (d : VoiceMessage) (h : isValidName d.speakerName = false) :
    "Invalid speaker name" ∈ validateExtractedData d := by
  rw [validateExtractedData_eq, h]
  simp

theorem personMessage_mem (d : VoiceMessage) (h : isValidName d.personMet = false) :
    "Invalid person name" ∈ validateExtractedData d := by
  rw [validateExtractedData_eq, h]
  cases h1 : isValidName d.speakerName <;>
    cases h2 : isValidGroupNumber d.groupNumber <;> simp

/-- C4: the group-number check passes exactly when `parseInt(s, 10)` yields
an integer n with 0 < n ≤ 999; boundary values behave as claimed
("1"/"999" valid, "0"/"1000"/"abc"/"-5" invalid); the violation message is
"Group number must be a valid number" and appears exactly when the check
fails; and a validated record keeps the group field in its original string
form ("007" stays "007", not the parsed 7). -/
theorem claim4_group_number_check :
    (∀ s : String, isValidGroupNumber s = true ↔
      ∃ n : Int, jsParseInt10 s = some n ∧ 0 < n ∧ n ≤ 999) ∧
    isValidGroupNumber "1" = true ∧ isValidGroupNumber "999" = true ∧
    isValidGroupNumber "0" = false ∧ isValidGroupNumber "1000" = false ∧
    isValidGroupNumber "abc" = false ∧ isValidGroupNumber "-5" = false ∧
    (∀ d : VoiceMessage,
      ("Group number must be a valid number" ∈ validateExtractedData d ↔
        isValidGroupNumber d.groupNumber = false)) ∧
    (validateTranscription
        "My name is Al and I belong to group 007 and today I met Bo at HQ.").extractedData =
      some { speakerName := "Al", groupNumber := "007", personMet := "Bo", location := "HQ" } := by
  refine ⟨?_, by decide, by decide, by decide, by decide, by decide, by decide,
    groupMessage_mem_iff, by decide⟩
  intro s
  cases h : jsParseInt10 s with
  | none => simp [isValidGroupNumber, h]
  | some n => simp [isValidGroupNumber, h]

/-- C5: the semantic checker evaluates all four checks without
short-circuiting and returns the error strings in the fixed order
speakerName, groupNumber, personMet, location; a name is valid exactly when
its length is in [2,100] over letters, whitespace, hyphen, period,
apostrophe (so any name containing a digit is rejected, with
"Invalid speaker name" / "Invalid person name" respectively); a location is
valid exactly when its length is in [2,200] over letters, digits,
whitespace, hyphen, period, comma, apostrophe. -/
theorem claim5_semantic_checker :
    (∀ d : VoiceMessage,
      validateExtractedData d =
        (if isValidName d.speakerName then [] else ["Invalid speaker name"]) ++
        (if isValidGroupNumber d.groupNumber then [] else ["Group number must be a valid number"]) ++
        (if isValidName d.personMet then [] else ["Invalid person name"]) ++
        (if isValidLocation d.location then [] else ["Invalid location"])) ∧
    (∀ s : String, isValidName s = true ↔ specNamePred s) ∧
    (∀ s : String, isValidLocation s = true ↔ specLocationPred s) ∧
    (∀ (s : String) (c : Char), c ∈ s.data → digitChar c = true →
      isValidName s = false) ∧
    (∀ d : VoiceMessage, isValidName d.speakerName = false →
      "Invalid speaker name" ∈ validateExtractedData d) ∧
    (∀ d : VoiceMessage, isValidName d.personMet = false →
      "Invalid person name" ∈ validateExtractedData d) :=
  ⟨validateExtractedData_eq, isValidName_iff, isValidLocation_iff,
    isValidName_false_of_digit, speakerMessage_mem, personMessage_mem⟩

/-- C3 counterexample: on a template-matching input whose speaker name
fails the semantic check, the result is the semantic-error case (isValid
false, errors populated) but its message is NOT the claimed literal
"format correct but data has issues: " + joined errors — the code's prefix
is "Format is correct but data has issues: ". -/
theorem claim3_message_counterexample :
    (validateTranscription
        "My name is J and I belong to group 5 and today I met Al at HQ.").isValid = false ∧
    (validateTranscription
        "My name is J and I belong to group 5 and today I met Al at HQ.").errors =
      some ["Invalid speaker name"] ∧
    (validateTranscription
        "My name is J and I belong to group 5 and today I met Al at HQ.").message ≠
      "format correct but data has issues: " ++ "Invalid speaker name" := by
  refine ⟨by decide, by decide, by decide⟩

/-- C3 amended: for every input that matches the template but whose
extracted fields fail a semantic check, `validateTranscription` returns
isValid false with message "Format is correct but data has issues: "
followed by the joined error list, and extractedData populated with the
trimmed extracted fields despite isValid being false. -/
theorem claim3_semantic_error_result (t : String) (g1 g2 g3 g4 : List Char)
    (hm : matchTemplate (jsTrim t.data) = some (g1, g2, g3, g4))
    (he : validateExtractedData (extractedOf g1 g2 g3 g4) ≠ []) :
    validateTranscription t =
      { isValid := false
        message := "Format is correct but data has issues: " ++
          String.intercalate ", " (validateExtractedData (extractedOf g1 g2 g3 g4))
        extractedData := some (extractedOf g1 g2 g3 g4)
        errors := some (validateExtractedData (extractedOf g1 g2 g3 g4)) } := by
  have hne : jsTrim t.data ≠ [] := by
    intro hnil
    rw [hnil] at hm
    exact Option.noConfusion hm
  unfold validateTranscription
  rw [if_neg (by rw [List.isEmpty_iff]; exact hne), hm]
  simp only [List.isEmpty_eq_false.2 he, Bool.not_false, if_true]
  rfl

/-- C3 witness: the amended theorem applied at a concrete
semantic-error input. -/
theorem claim3_semantic_error_result_witness :
    matchTemplate (jsTrim "My name is J and I belong to group 5 and today I met Al at HQ.".data) =
      some ("J".data, "5".data, "Al".data, "HQ".data) ∧
    validateTranscription "My name is J and I belong to group 5 and today I met Al at HQ." =
      { isValid := false
        message := "Format is correct but data has issues: " ++
          String.intercalate ", " (validateExtractedData (extractedOf "J".data "5".data "Al".data "HQ".data))
        extractedData := some (extractedOf "J".data "5".data "Al".data "HQ".data)
        errors := some (validateExtractedData (extractedOf "J".data "5".data "Al".data "HQ".data)) } :=
  ⟨by decide,
    claim3_semantic_error_result
      "My name is J and I belong to group 5 and today I met Al at HQ."
      "J".data "5".data "Al".data "HQ".data (by decide) (by decide)⟩

/-- C6: a transcription the validator rejects makes `createMeetingRecord`
throw the validation error carrying the ValidationResult's message and
errors verbatim, with the store untouched: no record persisted, no daily
statistics updated, no background task scheduled. -/
theorem claim6_validation_error_propagation (env : CreateEnv)
    (dto : CreateMeetingRecordDto) (db : DbState)
    (hv : (env.validate dto.fullTranscription).isValid = false) :
    createMeetingRecord env dto db =
      (Except.error (ServiceError.invalidMessageFormat
        (env.validate dto.fullTranscription).message
        (env.validate dto.fullTranscription).errors), db) := by
  unfold createMeetingRecord
  simp [hv]

/-- C6 witness: the real validator rejecting a malformed input inside the
service. -/
theorem claim6_validation_error_propagation_witness :
    (validateTranscription badText).isValid = false ∧
    createMeetingRecord envOkStats badDto emptyDb =
      (Except.error (ServiceError.invalidMessageFormat
        (validateTranscription badText).message
        (validateTranscription badText).errors), emptyDb) :=
  ⟨by decide, claim6_validation_error_propagation envOkStats badDto emptyDb (by decide)⟩

theorem create_success_eq (env : CreateEnv) (dto : CreateMeetingRecordDto)
    (db : DbState) (hv : (env.validate dto.fullTranscription).isValid = true)
    (hc : env.createFails = false) (hs : env.statsFails = false) :
    createMeetingRecord env dto db =
      (Except.ok (newMeetingRecord env dto
        ((env.validate dto.fullTranscription).extractedData.getD emptyVoice)
        db.records.length),
       { records := db.records ++ [newMeetingRecord env dto
           ((env.validate dto.fullTranscription).extractedData.getD emptyVoice)
           db.records.length]
         dailyStats := upsertDaily env.today db.dailyStats
         pendingBackground := db.pendingBackground ++ [db.records.length] }) := by
  unfold createMeetingRecord
  simp [hv, hc, hs, newMeetingRecord, emptyVoice]

theorem createOk_state (env : CreateEnv) (dto : CreateMeetingRecordDto)
    (db : DbState) (r : MeetingRecordRow) (db' : DbState)
    (h : createMeetingRecord env dto db = (Except.ok r, db')) :
    db'.dailyStats = upsertDaily env.today db.dailyStats ∧
    db'.records = db.records ++ [r] := by
  cases hv : (env.validate dto.fullTranscription).isValid with
  | false => unfold createMeetingRecord at h; simp [hv] at h
  | true =>
    cases hc : env.createFails with
    | true => unfold createMeetingRecord at h; simp [hv, hc] at h
    | false =>
      cases hs : env.statsFails with
      | true => unfold createMeetingRecord at h; simp [hv, hc, hs] at h
      | false =>
        rw [create_success_eq env dto db hv hc hs] at h
        simp only [Prod.mk.injEq, Except.ok.injEq] at h
        obtain ⟨hr, hdb⟩ := h
        subst hdb
        exact ⟨rfl, by rw [hr]⟩

theorem totalFor_upsert (date : Nat) (stats : List DailyStatsRow) :
    totalFor date (upsertDaily date stats) = totalFor date stats + 1 := by
  induction stats with
  | nil => simp [upsertDaily, totalFor]
  | cons r rs ih =>
    by_cases h : r.date = date
    · simp [upsertDaily, h, totalFor, List.filter_cons]
      omega
    · have h' : decide (r.date = date) = false := by simp [h]
      simp only [upsertDaily, if_neg h, totalFor, List.filter_cons, h',
        Bool.false_eq_true, if_false]
      simpa [totalFor] using ih

theorem upsertDaily_absent (date : Nat) (stats : List DailyStatsRow)
    (h : ∀ r ∈ stats, r.date ≠ date) :
    upsertDaily date stats = stats ++
      [{ date := date, totalRecordings := 1, successfulRecordings := 1,
         failedRecordings := 0, uniqueGroups := 1, uniqueSpeakers := 1,
         averageDuration := 0 }] := by
  induction stats with
  | nil => rfl
  | cons r rs ih =>
    simp only [upsertDaily, if_neg (h r (List.mem_cons_self r rs)), List.cons_append,
      List.cons.injEq, true_and]
    exact ih (fun q hq => h q (List.mem_cons_of_mem r hq))

theorem runCreates_total (env : CreateEnv) (dto : CreateMeetingRecordDto)
    (hv : (env.validate dto.fullTranscription).isValid = true)
    (hc : env.createFails = false) (hs : env.statsFails = false)
    (n : Nat) (db : DbState) :
    totalFor env.today (runCreates env dto n db).dailyStats =
      totalFor env.today db.dailyStats + n := by
  induction n generalizing db with
  | zero => rfl
  | succ n ih =>
    show totalFor env.today (runCreates env dto n (createMeetingRecord env dto db).2).dailyStats = _
    rw [ih, create_success_eq env dto db hv hc hs]
    show totalFor env.today (upsertDaily env.today db.dailyStats) + n = _
    rw [totalFor_upsert]
    omega

/-- C7: a successful create call performs exactly one DailyStatistics
upsert for the derived date (its final statistics are exactly one upsert of
the initial ones, and the new record is appended); the upsert increments
totalRecordings and successfulRecordings of an existing row by 1 without
recomputing the other fields, and creates the 1/1/0/1/1/0 baseline row when
absent; hence N calls for the same date raise totalRecordings by exactly N. -/
theorem claim7_daily_statistics_upsert :
    (∀ (env : CreateEnv) (dto : CreateMeetingRecordDto) (db : DbState)
       (r : MeetingRecordRow) (db' : DbState),
      createMeetingRecord env dto db = (Except.ok r, db') →
      db'.dailyStats = upsertDaily env.today db.dailyStats ∧
      db'.records = db.records ++ [r]) ∧
    (∀ (date : Nat) (r : DailyStatsRow) (rs : List DailyStatsRow), r.date = date →
      upsertDaily date (r :: rs) =
        { r with totalRecordings := r.totalRecordings + 1,
                 successfulRecordings := r.successfulRecordings + 1 } :: rs) ∧
    (∀ (date : Nat) (stats : List DailyStatsRow), (∀ r ∈ stats, r.date ≠ date) →
      upsertDaily date stats = stats ++
        [{ date := date, totalRecordings := 1, successfulRecordings := 1,
           failedRecordings := 0, uniqueGroups := 1, uniqueSpeakers := 1,
           averageDuration := 0 }]) ∧
    (∀ (date : Nat) (stats : List DailyStatsRow),
      totalFor date (upsertDaily date stats) = totalFor date stats + 1) ∧
    (∀ (env : CreateEnv) (dto : CreateMeetingRecordDto),
      (env.validate dto.fullTranscription).isValid = true →
      env.createFails = false → env.statsFails = false →
      ∀ (n : Nat) (db : DbState),
        totalFor env.today (runCreates env dto n db).dailyStats =
          totalFor env.today db.dailyStats + n) :=
  ⟨createOk_state,
   fun date r rs h => by simp [upsertDaily, h],
   upsertDaily_absent,
   totalFor_upsert,
   fun env dto hv hc hs n db => runCreates_total env dto hv hc hs n db⟩

/-- C7 witness: three successful create calls on one date take the daily
total for that date from 0 to 3. -/
theorem claim7_daily_statistics_upsert_witness :
    totalFor 7 (runCreates envOkStats goodDto 3 emptyDb).dailyStats =
      totalFor 7 emptyDb.dailyStats + 3 :=
  claim7_daily_statistics_upsert.2.2.2.2 envOkStats goodDto (by decide) rfl rfl 3 emptyDb

/-- C10: when persistence succeeds but the synchronous daily-statistics
upsert fails, the caller sees the generic creation failure while the new
record remains persisted (and the background task scheduled) — creation is
not atomic with the aggregate update. -/
theorem claim10_create_not_atomic (env : CreateEnv)
    (dto : CreateMeetingRecordDto) (db : DbState)
    (hv : (env.validate dto.fullTranscription).isValid = true)
    (hc : env.createFails = false) (hs : env.statsFails = true) :
    createMeetingRecord env dto db =
      (Except.error ServiceError.failedToCreate,
       { records := db.records ++ [newMeetingRecord env dto
           ((env.validate dto.fullTranscription).extractedData.getD emptyVoice)
           db.records.length]
         dailyStats := db.dailyStats
         pendingBackground := db.pendingBackground ++ [db.records.length] }) := by
  unfold createMeetingRecord
  simp [hv, hc, hs, newMeetingRecord, emptyVoice]

/-- C10 witness: a concrete run where the record is persisted, the
statistics update throws, and the caller sees the generic failure. -/
theorem claim10_create_not_atomic_witness :
    createMeetingRecord envBadStats goodDto emptyDb =
      (Except.error ServiceError.failedToCreate,
       { records := [newMeetingRecord envBadStats goodDto
           ((validateTranscription goodText).extractedData.getD emptyVoice) 0]
         dailyStats := []
         pendingBackground := [0] }) := by
  have h := claim10_create_not_atomic envBadStats goodDto emptyDb (by decide) rfl rfl
  simpa [emptyDb, envBadStats, goodDto] using h

/-- C9: the background per-record sync path violates the invariant that a
record with syncedToSheets = true carries a row id and a sync timestamp.
Starting from a store satisfying the invariant, a successful background
push produces a record with syncedToSheets = true, sheetsLastSync set, but
googleSheetsRowId still absent (the code discards the row id returned by
`addRecord`); the batch path at the same store preserves the invariant. -/
theorem claim9_background_sync_drops_row_id :
    syncInvariant soloDb ∧
    (∃ r ∈ (backgroundSyncTask (fun _ => Except.ok 7) 99 0 soloDb).records,
      r.syncedToSheets = true ∧ r.googleSheetsRowId = none ∧
      r.sheetsLastSync = some 99) ∧
    ¬ syncInvariant (backgroundSyncTask (fun _ => Except.ok 7) 99 0 soloDb) ∧
    syncInvariant (syncToGoogleSheets (fun _ => Except.ok 7) 99 soloDb).2 := by
  simp only [syncInvariant]
  decide

theorem syncLoop_counts (push : MeetingRecordRow → Except String Nat) (now : Nat)
    (batch : List MeetingRecordRow) (db : DbState) (s e : Nat) :
    (syncLoop push now batch db s e).1.1 + (syncLoop push now batch db s e).1.2 =
      s + e + batch.length := by
  induction batch generalizing db s e with
  | nil => simp [syncLoop]
  | cons r rs ih =>
    cases hp : push r with
    | ok rowId =>
      simp only [syncLoop, hp, List.length_cons]
      rw [ih]
      omega
    | error msg =>
      simp only [syncLoop, hp, List.length_cons]
      rw [ih]
      omega

theorem updateRecord_ids (db : DbState) (i : Nat)
    (f : MeetingRecordRow → MeetingRecordRow) (hf : ∀ r, (f r).id = r.id) :
    (updateRecord db i f).records.map (fun r => r.id) =
      db.records.map (fun r => r.id) := by
  simp only [updateRecord, List.map_map]
  apply List.map_congr_left
  intro a _
  by_cases h : a.id = i <;> simp [h, hf]

theorem syncLoop_records (push : MeetingRecordRow → Except String Nat) (now : Nat) :
    ∀ (batch : List MeetingRecordRow) (db : DbState) (s e : Nat),
    (db.records.map (fun r => r.id)).Nodup →
    (∀ r ∈ batch, r ∈ db.records) →
    (batch.map (fun r => r.id)).Nodup →
    (syncLoop push now batch db s e).2.records =
      db.records.map (applyPush push now batch) := by
  intro batch
  induction batch with
  | nil =>
    intro db s e _ _ _
    simp only [syncLoop]
    rw [show db.records.map (applyPush push now []) = db.records.map id from
      List.map_congr_left (fun a _ => by simp [applyPush]), List.map_id]
  | cons r rs ih =>
    intro db s e hdb hmem hbatch
    have hrdb : r ∈ db.records := hmem r (List.mem_cons_self r rs)
    have hnotin : r.id ∉ rs.map (fun x => x.id) := (List.nodup_cons.1 hbatch).1
    have hrs_nodup : (rs.map (fun x => x.id)).Nodup := (List.nodup_cons.1 hbatch).2
    have inj := List.inj_on_of_nodup_map hdb
    have hany : rs.any (fun x => x.id = r.id) = false := by
      simp only [List.any_eq_false, decide_eq_true_eq]
      intro x hx he
      exact hnotin (he ▸ List.mem_map_of_mem (fun y => y.id) hx)
    cases hp : push r with
    | ok rowId =>
      simp only [syncLoop, hp]
      rw [ih (updateRecord db r.id (fun q =>
          { q with syncedToSheets := true, googleSheetsRowId := some rowId,
                   sheetsLastSync := some now })) (s + 1) e
        (by
          rw [updateRecord_ids db r.id (fun q =>
            { q with syncedToSheets := true, googleSheetsRowId := some rowId,
                     sheetsLastSync := some now }) (fun q => rfl)]
          exact hdb)
        (by
          intro q hq
          have hq_db : q ∈ db.records := hmem q (List.mem_cons_of_mem r hq)
          have hqid : ¬q.id = r.id := by
            intro he
            exact hnotin (he ▸ List.mem_map_of_mem (fun y => y.id) hq)
          simp only [updateRecord, List.mem_map]
          exact ⟨q, hq_db, by simp [hqid]⟩)
        hrs_nodup]
      simp only [updateRecord, List.map_map]
      apply List.map_congr_left
      intro q hq
      by_cases hqi : q.id = r.id
      · have hqr : q = r := inj hq hrdb hqi
        subst hqr
        simp [applyPush, hany, hp, hqi]
      · have hri : ¬r.id = q.id := fun he => hqi he.symm
        simp [applyPush, hqi, hri]
    | error msg =>
      simp only [syncLoop, hp]
      rw [ih db s (e + 1) hdb (fun q hq => hmem q (List.mem_cons_of_mem r hq)) hrs_nodup]
      apply List.map_congr_left
      intro q hq
      by_cases hqi : q.id = r.id
      · have hqr : q = r := inj hq hrdb hqi
        subst hqr
        simp [applyPush, hany, hp]
      · have hri : ¬r.id = q.id := fun he => hqi he.symm
        simp [applyPush, hqi, hri]

theorem pendingBatch_subset (db : DbState) :
    ∀ r ∈ pendingBatch db, r ∈ db.records ∧ r.syncedToSheets = false := by
  intro r hr
  have h1 : r ∈ (db.records.filter (fun q => !q.syncedToSheets)).insertionSort recDateLe :=
    List.Sublist.mem hr (List.take_sublist 100 _)
  have h2 : r ∈ db.records.filter (fun q => !q.syncedToSheets) :=
    (List.perm_insertionSort recDateLe _).mem_iff.1 h1
  have h3 := List.mem_filter.1 h2
  exact ⟨h3.1, by simpa using h3.2⟩

theorem pendingBatch_sorted (db : DbState) :
    List.Pairwise (fun a b => a.recordingDate ≤ b.recordingDate) (pendingBatch db) := by
  have hs : List.Sorted recDateLe
      ((db.records.filter (fun q => !q.syncedToSheets)).insertionSort recDateLe) :=
    List.sorted_insertionSort recDateLe _
  exact List.Pairwise.sublist (List.take_sublist 100 _) hs

theorem pendingBatch_ids_nodup (db : DbState)
    (hids : (db.records.map (fun r => r.id)).Nodup) :
    ((pendingBatch db).map (fun r => r.id)).Nodup := by
  have h1 : ((db.records.filter (fun q => !q.syncedToSheets)).map (fun r => r.id)).Nodup :=
    List.Sublist.nodup (List.Sublist.map _ (List.filter_sublist db.records)) hids
  have h2 : (((db.records.filter (fun q => !q.syncedToSheets)).insertionSort
      recDateLe).map (fun r => r.id)).Nodup :=
    (List.Perm.nodup_iff (List.Perm.map _ (List.perm_insertionSort recDateLe _))).2 h1
  exact List.Sublist.nodup (List.Sublist.map _ (List.take_sublist 100 _)) h2

/-- C8: the sync pass fetches at most 100 unsynced records in
recordingDate-ascending order; its {synced, errors} counters sum to the
number of records processed; and the final store is the initial one with
exactly the successfully pushed batch records rewritten to
syncedToSheets = true with the returned row id and the sync timestamp —
failed records and records outside the batch are byte-for-byte unchanged
(in particular failures remain syncedToSheets = false). -/
theorem claim8_sync_pending_batch (push : MeetingRecordRow → Except String Nat)
    (now : Nat) (db : DbState)
    (hids : (db.records.map (fun r => r.id)).Nodup) :
    (pendingBatch db).length ≤ 100 ∧
    (∀ r ∈ pendingBatch db, r ∈ db.records ∧ r.syncedToSheets = false) ∧
    List.Pairwise (fun a b => a.recordingDate ≤ b.recordingDate) (pendingBatch db) ∧
    (syncToGoogleSheets push now db).1.1 + (syncToGoogleSheets push now db).1.2 =
      (pendingBatch db).length ∧
    (syncToGoogleSheets push now db).2.records =
      db.records.map (applyPush push now (pendingBatch db)) ∧
    (∀ r ∈ pendingBatch db, ∀ rowId, push r = Except.ok rowId →
      { r with syncedToSheets := true, googleSheetsRowId := some rowId,
               sheetsLastSync := some now } ∈ (syncToGoogleSheets push now db).2.records) ∧
    (∀ r ∈ pendingBatch db, ∀ msg, push r = Except.error msg →
      r ∈ (syncToGoogleSheets push now db).2.records ∧ r.syncedToSheets = false) ∧
    (∀ q ∈ db.records, (pendingBatch db).any (fun r => r.id = q.id) = false →
      q ∈ (syncToGoogleSheets push now db).2.records) := by
  have hrecords : (syncToGoogleSheets push now db).2.records =
      db.records.map (applyPush push now (pendingBatch db)) :=
    syncLoop_records push now (pendingBatch db) db 0 0 hids
      (fun r hr => (pendingBatch_subset db r hr).1) (pendingBatch_ids_nodup db hids)
  refine ⟨?_, pendingBatch_subset db, pendingBatch_sorted db, ?_, hrecords, ?_, ?_, ?_⟩
  · simp only [pendingBatch, List.length_take]
    exact inf_le_left
  · have := syncLoop_counts push now (pendingBatch db) db 0 0
    simpa [syncToGoogleSheets] using this
  · intro r hr rowId hp
    rw [hrecords]
    have happ : applyPush push now (pendingBatch db) r =
        { r with syncedToSheets := true, googleSheetsRowId := some rowId,
                 sheetsLastSync := some now } := by
      have hin : (pendingBatch db).any (fun x => x.id = r.id) = true := by
        simp only [List.any_eq_true, decide_eq_true_eq]
        exact ⟨r, hr, rfl⟩
      simp [applyPush, hin, hp]
    exact happ ▸ List.mem_map_of_mem _ (pendingBatch_subset db r hr).1
  · intro r hr msg hp
    refine ⟨?_, (pendingBatch_subset db r hr).2⟩
    rw [hrecords]
    have happ : applyPush push now (pendingBatch db) r = r := by
      by_cases hin : (pendingBatch db).any (fun x => x.id = r.id) = true
      · simp [applyPush, hin, hp]
      · simp [applyPush, Bool.eq_false_iff.2 hin]
    exact happ ▸ List.mem_map_of_mem _ (pendingBatch_subset db r hr).1
  · intro q hq hnone
    rw [hrecords]
    have happ : applyPush push now (pendingBatch db) q = q := by
      simp [applyPush, hnone]
    exact happ ▸ List.mem_map_of_mem _ hq

/-- C8 witness: the sync theorem applied to a two-record store with one
succeeding and one failing push. -/
theorem claim8_sync_pending_batch_witness :
    (dbW.records.map (fun r => r.id)).Nodup ∧
    ((pendingBatch dbW).length ≤ 100 ∧
    (∀ r ∈ pendingBatch dbW, r ∈ dbW.records ∧ r.syncedToSheets = false) ∧
    List.Pairwise (fun a b => a.recordingDate ≤ b.recordingDate) (pendingBatch dbW) ∧
    (syncToGoogleSheets pushW 99 dbW).1.1 + (syncToGoogleSheets pushW 99 dbW).1.2 =
      (pendingBatch dbW).length ∧
    (syncToGoogleSheets pushW 99 dbW).2.records =
      dbW.records.map (applyPush pushW 99 (pendingBatch dbW)) ∧
    (∀ r ∈ pendingBatch dbW, ∀ rowId, pushW r = Except.ok rowId →
      { r with syncedToSheets := true, googleSheetsRowId := some rowId,
               sheetsLastSync := some 99 } ∈ (syncToGoogleSheets pushW 99 dbW).2.records) ∧
    (∀ r ∈ pendingBatch dbW, ∀ msg, pushW r = Except.error msg →
      r ∈ (syncToGoogleSheets pushW 99 dbW).2.records ∧ r.syncedToSheets = false) ∧
    (∀ q ∈ dbW.records, (pendingBatch dbW).any (fun r => r.id = q.id) = false →
      q ∈ (syncToGoogleSheets pushW 99 dbW).2.records)) :=
  ⟨by decide, claim8_sync_pending_batch pushW 99 dbW (by decide)⟩

theorem isSome_opt_map {α β : Type} (f : α → β) (o : Option α) :
    (o.map f).isSome = o.isSome := by
  cases o <;> rfl

/-- Soundness and completeness of literal consumption: it succeeds with
remainder `r` exactly when the input is a case-insensitive copy of the
literal followed by `r`. -/
theorem stripLitCI_eq_some (lit : List Char) :
    ∀ (cs r : List Char), stripLitCI lit cs = some r ↔
      ∃ l0, cs = l0 ++ r ∧ l0.map asciiLower = lit := by
  induction lit with
  | nil =>
    intro cs r
    simp only [stripLitCI, Option.some.injEq]
    constructor
    · rintro rfl
      exact ⟨[], rfl, rfl⟩
    · rintro ⟨l0, hcs, hmap⟩
      rw [List.map_eq_nil_iff.1 hmap] at hcs
      simpa using hcs
  | cons l ls ih =>
    intro cs r
    cases cs with
    | nil =>
      simp only [stripLitCI]
      constructor
      · intro h
        exact Option.noConfusion h
      · rintro ⟨l0, hcs, hmap⟩
        cases l0 with
        | nil => simp at hmap
        | cons a as => simp at hcs
    | cons c cs' =>
      simp only [stripLitCI]
      by_cases h : asciiLower c = l
      · rw [if_pos h, ih cs' r]
        constructor
        · rintro ⟨l0, hcs, hmap⟩
          exact ⟨c :: l0, by rw [hcs]; rfl, by simp [hmap, h]⟩
        · rintro ⟨l0, hcs, hmap⟩
          cases l0 with
          | nil => simp at hmap
          | cons a as =>
            simp only [List.cons_append, List.cons.injEq] at hcs
            simp only [List.map_cons, List.cons.injEq] at hmap
            exact ⟨as, hcs.2, hmap.2⟩
      · rw [if_neg h]
        constructor
        · intro hn
          exact Option.noConfusion hn
        · rintro ⟨l0, hcs, hmap⟩
          cases l0 with
          | nil => simp at hmap
          | cons a as =>
            simp only [List.cons_append, List.cons.injEq] at hcs
            simp only [List.map_cons, List.cons.injEq] at hmap
            exact absurd (hcs.1 ▸ hmap.1) h

theorem lastCapture_isSome : ∀ cs, (lastCapture cs).isSome = true ↔ specLast cs := by
  intro cs
  induction cs with
  | nil =>
    simp only [lastCapture, Option.isSome_none, Bool.false_eq_true, false_iff]
    rintro ⟨d, p, hd, -, -, heq⟩
    exact hd (List.append_eq_nil.1 heq.symm).1
  | cons c cs' ih =>
    simp only [lastCapture]
    by_cases hdot : dotOk c = true
    · rw [if_pos hdot]
      by_cases hod : optDot cs' = true
      · rw [if_pos hod]
        simp only [Option.isSome_some, true_iff]
        have hod' : cs' = [] ∨ cs' = ['.'] := by simpa [optDot] using hod
        exact ⟨[c], cs', by simp, by simpa using hdot, hod', rfl⟩
      · rw [if_neg hod]
        rw [isSome_opt_map, ih]
        have hod' : ¬(cs' = [] ∨ cs' = ['.']) := by simpa [optDot] using hod
        constructor
        · rintro ⟨d, p, hd, hall, hp, heq⟩
          refine ⟨c :: d, p, by simp, ?_, hp, by rw [heq]; rfl⟩
          intro x hx
          rcases List.mem_cons.1 hx with rfl | hx'
          · exact hdot
          · exact hall x hx'
        · rintro ⟨d, p, hd, hall, hp, heq⟩
          cases d with
          | nil => exact absurd rfl hd
          | cons a d' =>
            simp only [List.cons_append, List.cons.injEq] at heq
            obtain ⟨-, heq'⟩ := heq
            cases d' with
            | nil =>
              rw [List.nil_append] at heq'
              exact absurd (heq' ▸ hp) hod'
            | cons b d'' =>
              exact ⟨b :: d'', p, by simp,
                fun x hx => hall x (List.mem_cons_of_mem a hx), hp, heq'⟩
    · rw [if_neg hdot]
      simp only [Option.isSome_none, Bool.false_eq_true, false_iff]
      rintro ⟨d, p, hd, hall, -, heq⟩
      cases d with
      | nil => exact hd rfl
      | cons a d' =>
        simp only [List.cons_append, List.cons.injEq] at heq
        exact hdot (heq.1 ▸ hall a (List.mem_cons_self a d'))

/-- Soundness and completeness of the lazy backtracking matcher for one
group: it succeeds exactly when some decomposition exists. -/
theorem lazySplit_isSome {α : Type} (lit : List Char) (k : List Char → Option α)
    (K : List Char → Prop) (hk : ∀ r, (k r).isSome = true ↔ K r) :
    ∀ cs, (lazySplit lit k cs).isSome = true ↔ specSplit lit K cs := by
  intro cs
  induction cs with
  | nil =>
    simp only [lazySplit, Option.isSome_none, Bool.false_eq_true, false_iff]
    rintro ⟨g, l0, r, hg, -, -, -, heq⟩
    exact hg (List.append_eq_nil.1 (List.append_eq_nil.1 heq.symm).1).1
  | cons c cs' ih =>
    by_cases hdot : dotOk c = true
    · cases hs : stripLitCI lit cs' with
      | some rest =>
        cases hkr : k rest with
        | some a =>
          have hE : lazySplit lit k (c :: cs') = some ([c], a) := by
            simp [lazySplit, hdot, hs, hkr]
          rw [hE]
          refine iff_of_true rfl ?_
          obtain ⟨l0, hcs', hmap⟩ := (stripLitCI_eq_some lit cs' rest).1 hs
          refine ⟨[c], l0, rest, by simp, by simpa using hdot, hmap,
            (hk rest).1 (by rw [hkr]; rfl), ?_⟩
          rw [hcs']
          rfl
        | none =>
          have hE : lazySplit lit k (c :: cs') =
              (lazySplit lit k cs').map (fun p => (c :: p.1, p.2)) := by
            simp [lazySplit, hdot, hs, hkr]
          rw [hE, isSome_opt_map, ih]
          constructor
          · rintro ⟨g, l0, r, hg, hall, hmap, hK, heq⟩
            refine ⟨c :: g, l0, r, by simp, ?_, hmap, hK, ?_⟩
            · intro x hx
              rcases List.mem_cons.1 hx with rfl | hx'
              · exact hdot
              · exact hall x hx'
            · rw [heq]
              simp [List.append_assoc]
          · rintro ⟨g, l0, r, hg, hall, hmap, hK, heq⟩
            cases g with
            | nil => exact absurd rfl hg
            | cons a' g' =>
              simp only [List.cons_append, List.cons.injEq] at heq
              obtain ⟨-, heq'⟩ := heq
              cases g' with
              | nil =>
                exfalso
                have hstrip : stripLitCI lit cs' = some r :=
                  (stripLitCI_eq_some lit cs' r).2 ⟨l0, by simpa using heq', hmap⟩
                rw [hs, Option.some.injEq] at hstrip
                have hsome : (k rest).isSome = true := (hk rest).2 (hstrip ▸ hK)
                rw [hkr] at hsome
                exact Bool.false_ne_true hsome
              | cons b g'' =>
                exact ⟨b :: g'', l0, r, by simp,
                  fun x hx => hall x (List.mem_cons_of_mem a' hx), hmap, hK,
                  by simpa [List.append_assoc] using heq'⟩
      | none =>
        have hE : lazySplit lit k (c :: cs') =
            (lazySplit lit k cs').map (fun p => (c :: p.1, p.2)) := by
          simp [lazySplit, hdot, hs]
        rw [hE, isSome_opt_map, ih]
        constructor
        · rintro ⟨g, l0, r, hg, hall, hmap, hK, heq⟩
          refine ⟨c :: g, l0, r, by simp, ?_, hmap, hK, ?_⟩
          · intro x hx
            rcases List.mem_cons.1 hx with rfl | hx'
            · exact hdot
            · exact hall x hx'
          · rw [heq]
            simp [List.append_assoc]
        · rintro ⟨g, l0, r, hg, hall, hmap, hK, heq⟩
          cases g with
          | nil => exact absurd rfl hg
          | cons a' g' =>
            simp only [List.cons_append, List.cons.injEq] at heq
            obtain ⟨-, heq'⟩ := heq
            cases g' with
            | nil =>
              exfalso
              have hstrip : stripLitCI lit cs' = some r :=
                (stripLitCI_eq_some lit cs' r).2 ⟨l0, by simpa using heq', hmap⟩
              rw [hs] at hstrip
              exact Option.noConfusion hstrip
            | cons b g'' =>
              exact ⟨b :: g'', l0, r, by simp,
                fun x hx => hall x (List.mem_cons_of_mem a' hx), hmap, hK,
                by simpa [List.append_assoc] using heq'⟩
    · have hE : lazySplit lit k (c :: cs') = none := by
        simp [lazySplit, hdot]
      rw [hE]
      simp only [Option.isSome_none, Bool.false_eq_true, false_iff]
      rintro ⟨g, l0, r, hg, hall, -, -, heq⟩
      cases g with
      | nil => exact hg rfl
      | cons a' g' =>
        simp only [List.cons_append, List.cons.injEq] at heq
        exact hdot (heq.1 ▸ hall a' (List.mem_cons_self a' g'))

theorem matchTemplate_isSome_nested (cs : List Char) :
    (matchTemplate cs).isSome = true ↔
      ∃ l0 rest, l0.map asciiLower = litName ∧
        specSplit litBelong (specSplit litMet (specSplit litAt specLast)) rest ∧
        cs = l0 ++ rest := by
  have h1 : ∀ r, ((lazySplit litBelong (lazySplit litMet (lazySplit litAt lastCapture))) r).isSome = true ↔
      specSplit litBelong (specSplit litMet (specSplit litAt specLast)) r :=
    lazySplit_isSome litBelong _ _
      (lazySplit_isSome litMet _ _
        (lazySplit_isSome litAt lastCapture specLast lastCapture_isSome))
  cases hs : stripLitCI litName cs with
  | none =>
    have hE : matchTemplate cs = none := by simp [matchTemplate, hs]
    rw [hE]
    simp only [Option.isSome_none, Bool.false_eq_true, false_iff]
    rintro ⟨l0, rest, hmap, -, heq⟩
    have hsome : stripLitCI litName cs = some rest :=
      (stripLitCI_eq_some _ _ _).2 ⟨l0, heq, hmap⟩
    rw [hs] at hsome
    exact Option.noConfusion hsome
  | some r1 =>
    have hE : (matchTemplate cs).isSome =
        (lazySplit litBelong (lazySplit litMet (lazySplit litAt lastCapture)) r1).isSome := by
      cases hl : lazySplit litBelong (lazySplit litMet (lazySplit litAt lastCapture)) r1 with
      | none => simp [matchTemplate, hs, hl]
      | some q =>
        obtain ⟨a, b, c, d⟩ := q
        simp [matchTemplate, hs, hl]
    rw [hE, h1 r1]
    constructor
    · intro hspec
      obtain ⟨l0, hcs, hmap⟩ := (stripLitCI_eq_some _ cs r1).1 hs
      exact ⟨l0, r1, hmap, hspec, hcs⟩
    · rintro ⟨l0, rest, hmap, hspec, heq⟩
      have hsome : stripLitCI litName cs = some rest :=
        (stripLitCI_eq_some _ _ _).2 ⟨l0, heq, hmap⟩
      rw [hs, Option.some.injEq] at hsome
      exact hsome ▸ hspec

/-- The regex matcher accepts exactly the strings satisfying the spec's
template condition. -/
theorem matchTemplate_isSome (cs : List Char) :
    (matchTemplate cs).isSome = true ↔ specTemplateMatch cs := by
  rw [matchTemplate_isSome_nested]
  constructor
  · rintro ⟨l0, rest, hmap0, ⟨a, l1, r2, ha, halla, hmap1, hK2, heq1⟩, heq0⟩
    obtain ⟨b, l2, r3, hb, hallb, hmap2, hK3, heq2⟩ := hK2
    obtain ⟨c3, l3, r4, hc, hallc, hmap3, hlast, heq3⟩ := hK3
    obtain ⟨d, p, hdne, halld, hp, heq4⟩ := hlast
    refine ⟨l0, a, l1, b, l2, c3, l3, d, p, hmap0, ha, halla, hmap1, hb, hallb,
      hmap2, hc, hallc, hmap3, hdne, halld, hp, ?_⟩
    subst heq0 heq1 heq2 heq3 heq4
    simp [List.append_assoc]
  · rintro ⟨l0, a, l1, b, l2, c3, l3, d, p, hmap0, ha, halla, hmap1, hb, hallb,
      hmap2, hc, hallc, hmap3, hdne, halld, hp, heq⟩
    refine ⟨l0, a ++ l1 ++ (b ++ l2 ++ (c3 ++ l3 ++ (d ++ p))), hmap0,
      ⟨a, l1, b ++ l2 ++ (c3 ++ l3 ++ (d ++ p)), ha, halla, hmap1,
        ⟨b, l2, c3 ++ l3 ++ (d ++ p), hb, hallb, hmap2,
          ⟨c3, l3, d ++ p, hc, hallc, hmap3,
            ⟨d, p, hdne, halld, hp, rfl⟩, rfl⟩, rfl⟩, rfl⟩, ?_⟩
    subst heq
    simp [List.append_assoc]

/-- C1: on non-empty trimmed input, `validateTranscription` accepts (and
extracts from) exactly the strings matching the fixed template
case-insensitively, anchored at both ends with at most one optional
trailing period; any non-matching non-empty input yields isValid false,
the format-hint message — which contains the exact template string — and
no extractedData. -/
theorem claim1_template_acceptance (t : String) (h : jsTrim t.data ≠ []) :
    ((validateTranscription t).extractedData.isSome = true ↔
      specTemplateMatch (jsTrim t.data)) ∧
    (¬ specTemplateMatch (jsTrim t.data) →
      validateTranscription t =
        { isValid := false, message := formatHintMessage, extractedData := none,
          errors := none }) ∧
    formatHintMessage =
      "❌ Please follow the exact format: \"" ++
      "My name is [name] and I belong to group [#] and today I met [name] at [location]." ++
      "\"" := by
  refine ⟨?_, ?_, by decide⟩
  · rw [← matchTemplate_isSome]
    unfold validateTranscription
    rw [if_neg (by rw [List.isEmpty_iff]; exact h)]
    cases hm : matchTemplate (jsTrim t.data) with
    | none => simp
    | some g =>
      obtain ⟨g1, g2, g3, g4⟩ := g
      by_cases he : (validateExtractedData (extractedOf g1 g2 g3 g4)).isEmpty
      · simp [he]
      · simp only [Bool.not_eq_true] at he
        simp [he]
  · intro hnot
    have hm : matchTemplate (jsTrim t.data) = none := by
      cases hm : matchTemplate (jsTrim t.data) with
      | none => rfl
      | some g =>
        exact absurd ((matchTemplate_isSome _).1 (by rw [hm]; rfl)) hnot
    unfold validateTranscription
    rw [if_neg (by rw [List.isEmpty_iff]; exact h), hm]

/-- C1 witness: the theorem applied at a concrete non-blank input. -/
theorem claim1_template_acceptance_witness :
    jsTrim "hello".data ≠ [] ∧
    (((validateTranscription "hello").extractedData.isSome = true ↔
      specTemplateMatch (jsTrim "hello".data)) ∧
    (¬ specTemplateMatch (jsTrim "hello".data) →
      validateTranscription "hello" =
        { isValid := false, message := formatHintMessage, extractedData := none,
          errors := none }) ∧
    formatHintMessage =
      "❌ Please follow the exact format: \"" ++
      "My name is [name] and I belong to group [#] and today I met [name] at [location]." ++
      "\"") :=
  ⟨by decide, claim1_template_acceptance "hello" (by decide)⟩
